import Mathlib

/-!
Verification of the Plejd BLE mesh transport and device-decoding layer
(`plejd_mqtt_ha/bt_client.py`, `plejd_mqtt_ha/mdl/bt_device.py`,
`plejd_mqtt_ha/constants.py`, `plejd_mqtt_ha/mdl/bt_device_info.py`).

Bytes are modelled as `Nat` (values below 256 where the source guarantees it),
byte strings as `List Nat`.  External library primitives that the source calls
but does not implement (AES-128-ECB from `cryptography`, `hashlib.sha256`, the
bleak transport, `randbytes`) are passed in as explicit parameters or outcome
values, so every definition below is the embedding of repository code only.
-/

namespace PlejdBT

/-- Big-endian interpretation of a byte list, mirroring Python
`int.from_bytes(bs, "big")`. -/
def bytesToNatBE (bs : List Nat) : Nat :=
  bs.foldl (fun acc b => acc * 256 + b) 0

/-- Fixed-width big-endian byte encoding, mirroring Python `n.to_bytes(len, "big")`.
Values that do not fit are reduced modulo `2 ^ (8 * len)`; the source never reaches
that case. -/
def natToBytesBE : Nat → Nat → List Nat
  | 0, _ => []
  | len + 1, n => natToBytesBE len (n / 256) ++ [n % 256]

theorem natToBytesBE_length (len n : Nat) : (natToBytesBE len n).length = len := by
  induction len generalizing n with
  | zero => rfl
  | succ k ih => simp [natToBytesBE, ih]

/-- The xor loop of `BTClient._encrypt_decrypt_data`: byte `i` of the output is
`byte ^ cipher[i % 16]` (`for i, byte in enumerate(data): output += struct.pack("B",
byte ^ cipher[i % 16])`). -/
def xorKeystream (cipher : List Nat) : Nat → List Nat → List Nat
  | _, [] => []
  | i, b :: rest => (b ^^^ cipher.getD (i % 16) 0) :: xorKeystream cipher (i + 1) rest

/-- Embedding of `BTClient._encrypt_decrypt_data`.  The single-block AES-128-ECB
encryption comes from the external `cryptography` library and is passed in as
`aes` (key and 16-byte block to 16-byte ciphertext block).  `buf` mirrors
`buf = bytearray(addr * 2); buf += addr[:4]`. -/
def encrypt_decrypt_data (aes : List Nat → List Nat → List Nat)
    (key addr data : List Nat) : List Nat :=
  let buf := addr ++ addr ++ addr.take 4
  let cipher := aes key buf
  xorKeystream cipher 0 data

theorem xorKeystream_length (cipher : List Nat) (i : Nat) (data : List Nat) :
    (xorKeystream cipher i data).length = data.length := by
  induction data generalizing i with
  | nil => rfl
  | cons b rest ih => simp [xorKeystream, ih]

theorem xorKeystream_xorKeystream (cipher : List Nat) (i : Nat) (data : List Nat) :
    xorKeystream cipher i (xorKeystream cipher i data) = data := by
  induction data generalizing i with
  | nil => rfl
  | cons b rest ih => simp [xorKeystream, ih, Nat.xor_cancel_right]

/-- C1: for every 16-byte key, every peer address and every byte sequence,
applying the keystream cipher twice returns the input unchanged (the cipher is
its own inverse), the output always has the same length as the input, and the
zero-length input yields the zero-length output. -/
theorem C1_cipher_involution (aes : List Nat → List Nat → List Nat)
    (key addr data : List Nat) (hkey : key.length = 16) :
    encrypt_decrypt_data aes key addr (encrypt_decrypt_data aes key addr data) = data ∧
    (encrypt_decrypt_data aes key addr data).length = data.length ∧
    encrypt_decrypt_data aes key addr [] = [] := by
  refine ⟨?_, ?_, rfl⟩
  · exact xorKeystream_xorKeystream _ 0 data
  · exact xorKeystream_length _ 0 data

/-- Witness for C1 at a concrete key, address and data. -/
theorem C1_cipher_involution_witness :
    encrypt_decrypt_data (fun _ _ => List.replicate 16 55) (List.replicate 16 0)
        [1, 2, 3, 4, 5, 6]
        (encrypt_decrypt_data (fun _ _ => List.replicate 16 55) (List.replicate 16 0)
          [1, 2, 3, 4, 5, 6] [7, 8, 9]) = [7, 8, 9] :=
  (C1_cipher_involution (fun _ _ => List.replicate 16 55) (List.replicate 16 0)
    [1, 2, 3, 4, 5, 6] [7, 8, 9] (by simp)).1

/-- Values of the `constants.PlejdCommand` enum. -/
def PlejdCommand_values : List Nat := [0x00C8, 0x0098, 0x0097, 0x0021, 0x001B, 0x0016]

def BLE_CMD_DIM_CHANGE : Nat := 0x00C8

def BLE_CMD_DIM2_CHANGE : Nat := 0x0098

def BLE_CMD_STATE_CHANGE : Nat := 0x0097

def BLE_CMD_SCENE_TRIG : Nat := 0x0021

def BLE_CMD_TIME_UPDATE : Nat := 0x001B

def BLE_CMD_REMOTE_CLICK : Nat := 0x0016

def BLE_REQUEST_NO_RESPONSE : Nat := 0x0110

def BLE_REQUEST_RESPONSE : Nat := 0x0102

/-- Value of a hex digit as accepted by Python `bytearray.fromhex`. -/
def hexDigitVal (c : Char) : Option Nat :=
  if '0' ≤ c ∧ c ≤ '9' then some (c.toNat - '0'.toNat)
  else if 'a' ≤ c ∧ c ≤ 'f' then some (c.toNat - 'a'.toNat + 10)
  else if 'A' ≤ c ∧ c ≤ 'F' then some (c.toNat - 'A'.toNat + 10)
  else none

/-- ASCII whitespace, as skipped by CPython between the encoded bytes of a
`bytearray.fromhex` argument. -/
def isAsciiSpace (c : Char) : Bool :=
  c == ' ' || c == '\t' || c == '\n' || c == '\x0b' || c == '\x0c' || c == '\r'

/-- Core loop of Python `bytearray.fromhex`: ASCII whitespace may separate encoded
bytes, the two hex digits of one byte must be adjacent, and anything else raises
`ValueError` (modelled as `none`). -/
def fromhexAux : List Char → Option (List Nat)
  | [] => some []
  | c :: rest =>
    if isAsciiSpace c then fromhexAux rest
    else
      match rest with
      | [] => none
      | d :: rest2 =>
        match hexDigitVal c, hexDigitVal d with
        | some hi, some lo => (fromhexAux rest2).map (fun bs => (hi * 16 + lo) :: bs)
        | _, _ => none

/-- Python `bytearray.fromhex(hex_str)` as used by `BTClient._get_cmd_payload`. -/
def bytearray_fromhex (s : String) : Option (List Nat) := fromhexAux s.data

/-- Embedding of `BTClient._get_cmd_payload`: a 5-byte header written by
`struct.pack_into(">BHH", payload, 0, np.uint8(ble_address), np.ushort(response_type),
np.ushort(command))` followed by `bytearray.fromhex(hex_str)`.  The numpy casts wrap
their argument modulo `2 ^ 8` and `2 ^ 16`. -/
def get_cmd_payload (ble_address command : Nat) (hex_str : String)
    (response_type : Nat) : Option (List Nat) :=
  let header : List Nat :=
    [ble_address % 256,
     response_type % 65536 / 256, response_type % 65536 % 256,
     command % 65536 / 256, command % 65536 % 256]
  (bytearray_fromhex hex_str).map (fun hex_data_bytes => header ++ hex_data_bytes)

theorem fromhexAux_none_iff : ∀ (l : List Char), (∀ c ∈ l, isAsciiSpace c = false) →
    (fromhexAux l = none ↔ l.length % 2 = 1 ∨ ∃ c ∈ l, hexDigitVal c = none)
  | [], _ => by simp [fromhexAux]
  | [c], h => by
    have hc : isAsciiSpace c = false := h c (List.mem_singleton_self c)
    simp [fromhexAux, hc]
  | c :: d :: rest, h => by
    have hc : isAsciiSpace c = false := h c (by simp)
    have ih := fromhexAux_none_iff rest (fun x hx => h x (by simp [hx]))
    have hlen : (rest.length + 1 + 1) % 2 = rest.length % 2 := by omega
    cases hcv : hexDigitVal c with
    | none => simp [fromhexAux, hc, hcv]
    | some vc =>
      cases hdv : hexDigitVal d with
      | none => simp [fromhexAux, hc, hcv, hdv]
      | some vd =>
        simp only [fromhexAux, hc, Bool.false_eq_true, if_false, hcv, hdv,
          Option.map_eq_none', List.length_cons, hlen, List.mem_cons, ih]
        constructor
        · rintro (hodd | ⟨x, hx, hbad⟩)
          · exact Or.inl hodd
          · exact Or.inr ⟨x, Or.inr (Or.inr hx), hbad⟩
        · rintro (hodd | ⟨x, (rfl | rfl | hx), hbad⟩)
          · exact Or.inl hodd
          · simp [hcv] at hbad
          · simp [hdv] at hbad
          · exact Or.inr ⟨x, hx, hbad⟩

/-- C2 counterexample: `"12 34"` has odd length (and contains a character that is
not a hex digit), yet encoding succeeds, because Python `bytearray.fromhex` skips
ASCII whitespace between encoded bytes. -/
theorem C2_counterexample :
    "12 34".length % 2 = 1 ∧
    (∃ c ∈ "12 34".data, hexDigitVal c = none) ∧
    get_cmd_payload 1 0x0097 "12 34" 0x0110 =
      some [0x01, 0x01, 0x10, 0x00, 0x97, 0x12, 0x34] := by
  refine ⟨by decide, ⟨' ', by decide, by decide⟩, by decide⟩

/-- C2 (amended): for every target address below 256, the encoded command frame is
the 5-byte header — address at offset 0, response type as big-endian uint16 (reduced
modulo 2^16) at bytes 1-2, command id as big-endian uint16 (reduced modulo 2^16) at
bytes 3-4 — followed by the hex-decoded payload bytes; encoding fails exactly when
`bytearray.fromhex` rejects the payload string, which for strings free of ASCII
whitespace is exactly odd length or a non-hex-digit character. -/
theorem C2_cmd_payload_amended (ble_address command response_type : Nat) (s : String)
    (haddr : ble_address < 256) :
    (∀ bs, bytearray_fromhex s = some bs →
        get_cmd_payload ble_address command s response_type =
          some (ble_address :: response_type % 65536 / 256 :: response_type % 65536 % 256 ::
            command % 65536 / 256 :: command % 65536 % 256 :: bs)) ∧
    (get_cmd_payload ble_address command s response_type = none ↔
      bytearray_fromhex s = none) ∧
    ((∀ c ∈ s.data, isAsciiSpace c = false) →
      (bytearray_fromhex s = none ↔
        s.length % 2 = 1 ∨ ∃ c ∈ s.data, hexDigitVal c = none)) := by
  refine ⟨?_, ?_, ?_⟩
  · intro bs hbs
    simp [get_cmd_payload, hbs, Nat.mod_eq_of_lt haddr]
  · simp [get_cmd_payload, Option.map_eq_none']
  · intro hns
    have h := fromhexAux_none_iff s.data hns
    have hsl : s.length = s.data.length := rfl
    rw [bytearray_fromhex, hsl]
    exact h

/-- Witness for C2 (amended) at a concrete frame. -/
theorem C2_cmd_payload_amended_witness :
    get_cmd_payload 1 0x0097 "ab" 0x0110 = some [0x01, 0x01, 0x10, 0x00, 0x97, 0xAB] := by
  have h := (C2_cmd_payload_amended 1 0x0097 0x0110 "ab" (by decide)).1 [0xAB] (by decide)
  norm_num at h
  exact h

/-- Error raised by the transport helpers `_write_request` / `_read_request`
(`PlejdBluetoothError` and its subclasses); the message is irrelevant to the
claims and kept abstract. -/
abbrev BTError := Nat

/-- Outcomes of the three transport operations performed by
`BTClient._auth_challenge_response` on the authentication characteristic:
the initiating one-byte write, the challenge read, and the response write
(the latter as a function of the bytes written). -/
structure AuthTransport where
  write_initiate : Except BTError Unit
  read_challenge : Except BTError (List Nat)
  write_response : List Nat → Except BTError Unit

/-- Challenge-response computation of `BTClient._auth_challenge_response`:
`intermediate = sha256((key_int ^ challenge_int).to_bytes(16, "big")).digest()`,
`response = (part1 ^ part2).to_bytes(16, "big")` with `part1`/`part2` the
big-endian values of the two 16-byte halves of `intermediate`.  The external
`hashlib.sha256` digest is passed in as `sha256`. -/
def auth_response (sha256 : List Nat → List Nat) (crypto_key challenge : List Nat) :
    List Nat :=
  let key_int := bytesToNatBE crypto_key
  let challenge_int := bytesToNatBE challenge
  let intermediate := sha256 (natToBytesBE 16 (key_int ^^^ challenge_int))
  let part1 := bytesToNatBE (intermediate.take 16)
  let part2 := bytesToNatBE (intermediate.drop 16)
  natToBytesBE 16 (part1 ^^^ part2)

/-- Result of the authentication procedure: the boolean it returns, and the bytes
passed to the response write when that write was attempted. -/
structure AuthResult where
  success : Bool
  written : Option (List Nat)

/-- Embedding of `BTClient._auth_challenge_response`: write one byte, read the
challenge, write back `auth_response`; any transport error in these steps makes
the procedure return `False`. -/
def auth_challenge_response (sha256 : List Nat → List Nat) (crypto_key : List Nat)
    (t : AuthTransport) : AuthResult :=
  match t.write_initiate with
  | .error _ => ⟨false, none⟩
  | .ok _ =>
    match t.read_challenge with
    | .error _ => ⟨false, none⟩
    | .ok challenge =>
      let response := auth_response sha256 crypto_key challenge
      match t.write_response response with
      | .error _ => ⟨false, some response⟩
      | .ok _ => ⟨true, some response⟩

/-- C3: for every 16-byte key and every challenge read from the authentication
channel, the procedure writes back the 16-byte value H1 XOR H2, where H1 and H2
are the two 16-byte halves of SHA-256 of the 16-byte big-endian encoding of
key XOR challenge (as 128-bit big-endian integers); and it reports success if and
only if no transport error is raised during the initial write, the challenge read
and the response write. -/
theorem C3_auth_challenge_response (sha256 : List Nat → List Nat) (crypto_key : List Nat)
    (t : AuthTransport) (hkey : crypto_key.length = 16) :
    (∀ challenge, t.write_initiate = Except.ok () →
      t.read_challenge = Except.ok challenge →
        (auth_challenge_response sha256 crypto_key t).written =
          some (natToBytesBE 16
            (bytesToNatBE ((sha256 (natToBytesBE 16
                (bytesToNatBE crypto_key ^^^ bytesToNatBE challenge))).take 16) ^^^
             bytesToNatBE ((sha256 (natToBytesBE 16
                (bytesToNatBE crypto_key ^^^ bytesToNatBE challenge))).drop 16)))) ∧
    (∀ r, (auth_challenge_response sha256 crypto_key t).written = some r →
      r.length = 16) ∧
    ((auth_challenge_response sha256 crypto_key t).success = true ↔
      t.write_initiate = Except.ok () ∧
      ∃ challenge, t.read_challenge = Except.ok challenge ∧
        t.write_response (auth_response sha256 crypto_key challenge) = Except.ok ()) := by
  obtain ⟨w, rc, wr⟩ := t
  refine ⟨?_, ?_, ?_⟩
  · intro challenge hw hr
    subst hw hr
    simp only [auth_challenge_response]
    cases hwr : wr (auth_response sha256 crypto_key challenge) <;>
      simp [auth_response]
  · intro r hr
    cases w with
    | error e => simp [auth_challenge_response] at hr
    | ok u =>
      cases rc with
      | error e => simp [auth_challenge_response] at hr
      | ok challenge =>
        simp only [auth_challenge_response] at hr
        cases hwr : wr (auth_response sha256 crypto_key challenge) <;>
          rw [hwr] at hr <;> simp at hr <;> subst hr <;>
          simp [auth_response, natToBytesBE_length]
  · cases w with
    | error e => simp [auth_challenge_response]
    | ok u =>
      cases rc with
      | error e => simp [auth_challenge_response]
      | ok challenge =>
        simp only [auth_challenge_response]
        cases hwr : wr (auth_response sha256 crypto_key challenge) <;>
          simp [hwr]

/-- Witness for C3 at a concrete key, challenge and transport. -/
theorem C3_auth_challenge_response_witness :
    (auth_challenge_response (fun _ => List.replicate 32 7) (List.replicate 16 0)
      ⟨Except.ok (), Except.ok (List.replicate 16 1), fun _ => Except.ok ()⟩).success =
      true := by
  have h := (C3_auth_challenge_response (fun _ => List.replicate 32 7)
    (List.replicate 16 0)
    ⟨Except.ok (), Except.ok (List.replicate 16 1), fun _ => Except.ok ()⟩
    (by simp)).2.2
  exact h.mpr ⟨rfl, List.replicate 16 1, rfl, rfl⟩

/-- Embedding of `BTClient.ping`: write one random byte to the ping
characteristic, read back; return `False` on any transport error, an empty
response, or a response whose first byte is not `(sent + 1) & 0xFF`. -/
def ping (ping_byte : Nat) (write_result : Except BTError Unit)
    (read_result : Except BTError (List Nat)) : Bool :=
  match write_result with
  | .error _ => false
  | .ok _ =>
    match read_result with
    | .error _ => false
    | .ok pong_data =>
      if pong_data = [] ∨ ¬((ping_byte + 1) &&& 0xFF) = pong_data.getD 0 0 then false
      else true

/-- C5: ping returns true if and only if the byte echoed back equals
`(sent_byte + 1) mod 256`; it returns false for a transport error during the
write or the read, for an empty response, and for a mismatched response. -/
theorem C5_ping (ping_byte : Nat) (w : Except BTError Unit)
    (r : Except BTError (List Nat)) :
    ping ping_byte w r = true ↔
      w = Except.ok () ∧
      ∃ pong, r = Except.ok pong ∧ pong.head? = some ((ping_byte + 1) % 256) := by
  have hmask : (ping_byte + 1) &&& 0xFF = (ping_byte + 1) % 256 := by
    have h := Nat.and_pow_two_sub_one_eq_mod (ping_byte + 1) 8
    simpa using h
  cases w with
  | error e =>
    simp only [ping]
    constructor
    · intro h
      cases h
    · rintro ⟨h, _⟩
      cases h
  | ok u =>
    cases u
    cases r with
    | error e =>
      simp only [ping]
      constructor
      · intro h
        cases h
      · rintro ⟨_, pong, h, _⟩
        cases h
    | ok pong =>
      simp only [ping, hmask]
      cases pong with
      | nil => simp
      | cons b rest =>
        by_cases hb : (ping_byte + 1) % 256 = b
        · simp [hb]
        · simp [hb, Ne.symm hb]

/-- Result of `BTClient.send_command`: which exception it raises, or `ok`.
`invalidPayload` is the uncaught `ValueError` that `bytearray.fromhex` raises
inside `_get_cmd_payload`. -/
inductive SendResult where
  | notConnected
  | unsupportedCommand
  | invalidPayload
  | transportError (e : BTError)
  | ok
deriving DecidableEq

/-- Observable outcome of `BTClient.send_command`: the result, and the bytes
handed to the data-characteristic write when that write was attempted. -/
structure SendOutcome where
  result : SendResult
  written : Option (List Nat)
deriving DecidableEq

/-- Embedding of `BTClient.send_command`.  `connected` is `self.is_connected()`,
`write_result` the outcome of the `_write_request` on the data characteristic,
`encoded_client_address` the reversed MAC of the connected peer
(`self._encode_address(self._client.address)`), and `aes` the external AES
block encryption used by `_encrypt_decrypt_data`. -/
def send_command (aes : List Nat → List Nat → List Nat) (crypto_key : List Nat)
    (encoded_client_address : List Nat) (connected : Bool)
    (write_result : Except BTError Unit) (ble_address command : Nat) (data : String)
    (response_type : Nat) : SendOutcome :=
  if connected = false then ⟨.notConnected, none⟩
  else if command ∉ PlejdCommand_values then ⟨.unsupportedCommand, none⟩
  else
    match get_cmd_payload ble_address command data response_type with
    | none => ⟨.invalidPayload, none⟩
    | some payload =>
      let encoded_data := encrypt_decrypt_data aes crypto_key encoded_client_address payload
      match write_result with
      | .error e => ⟨.transportError e, some encoded_data⟩
      | .ok _ => ⟨.ok, some encoded_data⟩

/-- C4: send_command raises NotConnected when the session is not connected and
UnsupportedCommand when the command id is not a recognized Plejd command, both
before any transport write (no bytes are handed to the write in either case);
when both checks pass it writes the encrypted encoding of the command frame to
the data channel, and a transport failure during that write propagates to the
caller unmodified. -/
theorem C4_send_command (aes : List Nat → List Nat → List Nat)
    (crypto_key encoded_client_address : List Nat) (connected : Bool)
    (write_result : Except BTError Unit) (ble_address command : Nat) (data : String)
    (response_type : Nat) :
    (connected = false →
      send_command aes crypto_key encoded_client_address connected write_result
        ble_address command data response_type = ⟨.notConnected, none⟩) ∧
    (connected = true → command ∉ PlejdCommand_values →
      send_command aes crypto_key encoded_client_address connected write_result
        ble_address command data response_type = ⟨.unsupportedCommand, none⟩) ∧
    (connected = true → command ∈ PlejdCommand_values →
      ∀ payload, get_cmd_payload ble_address command data response_type = some payload →
        (send_command aes crypto_key encoded_client_address connected write_result
            ble_address command data response_type).written =
          some (encrypt_decrypt_data aes crypto_key encoded_client_address payload) ∧
        (∀ e, write_result = Except.error e →
          (send_command aes crypto_key encoded_client_address connected write_result
              ble_address command data response_type).result = .transportError e) ∧
        (write_result = Except.ok () →
          (send_command aes crypto_key encoded_client_address connected write_result
              ble_address command data response_type).result = .ok)) := by
  refine ⟨?_, ?_, ?_⟩
  · intro hc
    subst hc
    simp [send_command]
  · intro hc hcmd
    subst hc
    simp [send_command, hcmd]
  · intro hc hcmd payload hpayload
    subst hc
    cases write_result with
    | error e =>
      refine ⟨?_, ?_, ?_⟩
      · simp [send_command, hcmd, hpayload]
      · intro e2 he2
        cases he2
        simp [send_command, hcmd, hpayload]
      · intro h
        cases h
    | ok u =>
      cases u
      refine ⟨?_, ?_, ?_⟩
      · simp [send_command, hcmd, hpayload]
      · intro e2 he2
        cases he2
      · intro _
        simp [send_command, hcmd, hpayload]

/-- Witness for C4 at concrete inputs: the not-connected check fires first. -/
theorem C4_send_command_witness :
    send_command (fun _ _ => List.replicate 16 0) [0] [0] false (Except.ok ())
      1 0x0097 "01" 0x0110 = ⟨.notConnected, none⟩ :=
  (C4_send_command (fun _ _ => List.replicate 16 0) [0] [0] false (Except.ok ())
    1 0x0097 "01" 0x0110).1 rfl

/-- Supported commands of `BTLightInfo`. -/
def BTLightInfo_supported_commands : List Nat :=
  [BLE_CMD_DIM2_CHANGE, BLE_CMD_DIM_CHANGE, BLE_CMD_STATE_CHANGE]

/-- Supported commands of `BTSwitchInfo`. -/
def BTSwitchInfo_supported_commands : List Nat := [BLE_CMD_STATE_CHANGE]

/-- Supported commands of `BTDeviceTriggerInfo`. -/
def BTDeviceTriggerInfo_supported_commands : List Nat :=
  [BLE_CMD_REMOTE_CLICK, BLE_CMD_STATE_CHANGE, BLE_CMD_DIM_CHANGE, BLE_CMD_DIM2_CHANGE]

/-- Decoded light state (`BTLightData` from `bt_data_type.py`). -/
structure BTLightData where
  raw_data : List Nat
  state : Bool
  brightness : Nat
deriving DecidableEq

/-- Decoded switch state (`BTSwitchData`; referenced by `bt_device.py`, its fields
taken from the construction site in `BTSwitch._decode_response`). -/
structure BTSwitchData where
  raw_data : List Nat
  state : Bool
deriving DecidableEq

/-- Decoded trigger state (`BTDeviceTriggerData` from `bt_data_type.py`). -/
structure BTDeviceTriggerData where
  raw_data : List Nat
  input : Nat
deriving DecidableEq

/-- Command id extracted by every device decoder:
`int.from_bytes(decrypted_data[3:5], "big")`.  On frames shorter than 5 bytes the
Python slice simply yields fewer bytes. -/
def frame_command (decrypted_data : List Nat) : Nat :=
  bytesToNatBE ((decrypted_data.drop 3).take 2)

/-- Embedding of `BTLight._decode_response`.  A time-update command is filtered
out; a command outside `supported_commands` is only logged
(`logging.error(...)`) — the source has no early return there and decodes the
frame anyway. -/
def BTLight_decode_response (supported_commands : List Nat)
    (decrypted_data : List Nat) : Option BTLightData :=
  let command := frame_command decrypted_data
  if command = BLE_CMD_TIME_UPDATE then none
  else
    let state := if 5 < decrypted_data.length then decrypted_data.getD 5 0 else 0
    let brightness := if 7 < decrypted_data.length then decrypted_data.getD 7 0 else 0
    some ⟨decrypted_data, decide (state ≠ 0), brightness⟩

/-- Embedding of `BTSwitch._decode_response`: time updates and unsupported
commands both decode to `None`. -/
def BTSwitch_decode_response (supported_commands : List Nat)
    (decrypted_data : List Nat) : Option BTSwitchData :=
  let command := frame_command decrypted_data
  if command = BLE_CMD_TIME_UPDATE then none
  else if command ∉ supported_commands then none
  else
    let state := if 5 < decrypted_data.length then decrypted_data.getD 5 0 else 0
    some ⟨decrypted_data, decide (state ≠ 0)⟩

/-- Embedding of `BTDeviceTrigger._decode_response`: time updates, unsupported
commands and frames shorter than 8 bytes decode to `None`; otherwise
`input = decrypted_data[6]`. -/
def BTDeviceTrigger_decode_response (supported_commands : List Nat)
    (decrypted_data : List Nat) : Option BTDeviceTriggerData :=
  let command := frame_command decrypted_data
  if command = BLE_CMD_TIME_UPDATE then none
  else if command ∉ supported_commands then none
  else if decrypted_data.length < 8 then none
  else some ⟨decrypted_data, decrypted_data.getD 6 0⟩

/-- Sender-address extraction of the notification dispatcher
`subscribe_last_data._proxy_callback`: `sender_addr = decrypted_data[0]` on the
decrypted frame.  The Python indexing raises `IndexError` on an empty frame,
modelled as `none`. -/
def proxy_sender_address (decrypted_data : List Nat) : Option Nat :=
  decrypted_data.head?

/-- C6 divergence evidence: for the scene-trigger command id 0x0021, which no
device category supports and which is not the time-update id, the switch and
trigger decoders return no result, but the light decoder — whose source logs
`Command ... not supported` yet lacks the early return of its two sibling
classes — decodes the frame anyway; time-update frames decode to no result in
all three categories. -/
theorem C6_light_unsupported_not_filtered :
    frame_command [1, 0, 0, 0x00, 0x21, 0x01, 0, 0x80] = BLE_CMD_SCENE_TRIG ∧
    BLE_CMD_SCENE_TRIG ∉ BTLightInfo_supported_commands ∧
    BLE_CMD_SCENE_TRIG ∉ BTSwitchInfo_supported_commands ∧
    BLE_CMD_SCENE_TRIG ∉ BTDeviceTriggerInfo_supported_commands ∧
    BLE_CMD_SCENE_TRIG ≠ BLE_CMD_TIME_UPDATE ∧
    BTSwitch_decode_response BTSwitchInfo_supported_commands
      [1, 0, 0, 0x00, 0x21, 0x01, 0, 0x80] = none ∧
    BTDeviceTrigger_decode_response BTDeviceTriggerInfo_supported_commands
      [1, 0, 0, 0x00, 0x21, 0x01, 0, 0x80] = none ∧
    BTLight_decode_response BTLightInfo_supported_commands
      [1, 0, 0, 0x00, 0x21, 0x01, 0, 0x80] =
      some ⟨[1, 0, 0, 0x00, 0x21, 0x01, 0, 0x80], true, 0x80⟩ ∧
    BTLight_decode_response BTLightInfo_supported_commands
      [1, 0, 0, 0x00, 0x1B, 0x01, 0, 0x80] = none ∧
    BTSwitch_decode_response BTSwitchInfo_supported_commands
      [1, 0, 0, 0x00, 0x1B, 0x01, 0, 0x80] = none ∧
    BTDeviceTrigger_decode_response BTDeviceTriggerInfo_supported_commands
      [1, 0, 0, 0x00, 0x1B, 0x01, 0, 0x80] = none := by
  decide

/-- C7: every frame whose command id is in the light's supported-command set
decodes to state = (raw byte 5 ≠ 0) and brightness = raw byte 7, with the
missing byte read as 0/false on frames too short to contain it (the decoder is
total and never fails); in particular the frame
`[addr, x, x, 0x00, 0x97, 0x01, x, 0x80]` decodes to state true and
brightness 0x80. -/
theorem C7_light_decode (decrypted_data : List Nat)
    (h : frame_command decrypted_data ∈ BTLightInfo_supported_commands) :
    BTLight_decode_response BTLightInfo_supported_commands decrypted_data =
      some ⟨decrypted_data, decide (decrypted_data.getD 5 0 ≠ 0),
        decrypted_data.getD 7 0⟩ ∧
    BTLight_decode_response BTLightInfo_supported_commands
      [1, 0, 0, 0x00, 0x97, 0x01, 0, 0x80] =
      some ⟨[1, 0, 0, 0x00, 0x97, 0x01, 0, 0x80], true, 0x80⟩ := by
  constructor
  · have hne : frame_command decrypted_data ≠ BLE_CMD_TIME_UPDATE := by
      simp [BTLightInfo_supported_commands, BLE_CMD_DIM2_CHANGE, BLE_CMD_DIM_CHANGE,
        BLE_CMD_STATE_CHANGE] at h
      rcases h with h | h | h <;> simp [h, BLE_CMD_TIME_UPDATE]
    have hstate : (if 5 < decrypted_data.length then decrypted_data.getD 5 0 else 0) =
        decrypted_data.getD 5 0 := by
      by_cases h5 : 5 < decrypted_data.length
      · simp [h5]
      · have hle : decrypted_data.length ≤ 5 := by omega
        simp [h5, List.getD_eq_default _ _ hle, List.getElem?_eq_none hle]
    have hbright : (if 7 < decrypted_data.length then decrypted_data.getD 7 0 else 0) =
        decrypted_data.getD 7 0 := by
      by_cases h7 : 7 < decrypted_data.length
      · simp [h7]
      · have hle : decrypted_data.length ≤ 7 := by omega
        simp [h7, List.getD_eq_default _ _ hle, List.getElem?_eq_none hle]
    simp only [BTLight_decode_response, hne, if_false, hstate, hbright]
  · decide

/-- Witness for C7: the spec's example frame, with its command id 0x0097 in the
light's supported set. -/
theorem C7_light_decode_witness :
    BTLight_decode_response BTLightInfo_supported_commands
      [1, 0, 0, 0x00, 0x97, 0x01, 0, 0x80] =
      some ⟨[1, 0, 0, 0x00, 0x97, 0x01, 0, 0x80], true, 0x80⟩ :=
  (C7_light_decode [1, 0, 0, 0x00, 0x97, 0x01, 0, 0x80] (by decide)).2

/-- C8 counterexample: the 4-byte decrypted frame `[1, 2, 3, 0x97]` is shorter
than 5 bytes, yet nothing fails with a truncated-frame error: the dispatcher
extracts sender address 1, the command id read from the truncated slice is
0x0097, and the switch decoder returns a decoded result. -/
theorem C8_counterexample :
    ([1, 2, 3, 0x97] : List Nat).length < 5 ∧
    proxy_sender_address [1, 2, 3, 0x97] = some 1 ∧
    frame_command [1, 2, 3, 0x97] = BLE_CMD_STATE_CHANGE ∧
    BTSwitch_decode_response BTSwitchInfo_supported_commands [1, 2, 3, 0x97] =
      some ⟨[1, 2, 3, 0x97], false⟩ := by
  decide

/-- C8 (amended): frames shorter than 5 bytes are not rejected with a dedicated
error: the dispatcher reads byte 0 (an empty frame raises an index error, the
only failure) and the command id is read from whatever bytes positions 3-4 hold;
for every frame of at least 5 bytes the sender address is byte 0 and the command
id is the big-endian uint16 at bytes 3-4, and the full decrypted frame is handed
on as the command-specific payload. -/
theorem C8_frame_decode_amended (decrypted_data : List Nat) :
    (5 ≤ decrypted_data.length →
      proxy_sender_address decrypted_data = some (decrypted_data.getD 0 0) ∧
      frame_command decrypted_data =
        256 * decrypted_data.getD 3 0 + decrypted_data.getD 4 0) ∧
    (decrypted_data ≠ [] → (proxy_sender_address decrypted_data).isSome = true) ∧
    proxy_sender_address [] = none := by
  refine ⟨?_, ?_, rfl⟩
  · intro h5
    rcases decrypted_data with _ | ⟨a, _ | ⟨b, _ | ⟨c, _ | ⟨d, _ | ⟨e, rest⟩⟩⟩⟩⟩
    · simp at h5
    · simp at h5
    · simp at h5
    · simp at h5
    · simp at h5
    · refine ⟨rfl, ?_⟩
      simp [frame_command, bytesToNatBE]
      ring
  · intro hne
    cases decrypted_data with
    | nil => exact absurd rfl hne
    | cons a rest => rfl

/-- Witness for C8 (amended) at a concrete 5-byte frame. -/
theorem C8_frame_decode_amended_witness :
    proxy_sender_address [9, 0, 0, 0x02, 0x1B] = some 9 ∧
    frame_command [9, 0, 0, 0x02, 0x1B] = 256 * 0x02 + 0x1B := by
  have h := (C8_frame_decode_amended [9, 0, 0, 0x02, 0x1B]).1 (by decide)
  exact ⟨h.1, h.2⟩

/-- One iteration of the inner retry loop of `_stay_connected_loop.heartbeat`:
either the session was not connected (`_connect` is awaited and its result
discarded) or it was connected and a ping was sent. -/
inductive HeartbeatEvent where
  | reconnect (success : Bool)
  | ping (success : Bool)
deriving DecidableEq

/-- Retry counter update of one inner-loop iteration: `retries += 1` after every
`_connect` call regardless of its result, and after every failed ping; a
successful ping leaves the counter unchanged (it is never reset). -/
def heartbeat_step (retries : Nat) : HeartbeatEvent → Nat
  | .reconnect _ => retries + 1
  | .ping ok => if ok then retries else retries + 1

/-- The inner `while retries < self._settings.ble.retries` loop, run over a finite
prefix of iteration outcomes: it consumes events while `retries < limit` and
returns the final counter. -/
def heartbeat_run (limit : Nat) : Nat → List HeartbeatEvent → Nat
  | retries, [] => retries
  | retries, e :: rest =>
    if retries < limit then heartbeat_run limit (heartbeat_step retries e) rest
    else retries

/-- The timeout branch `if retries >= self._settings.ble.retries:
logging.warning("Hearbeat timeout")` after the inner loop. -/
def heartbeat_timeout (limit : Nat) (events : List HeartbeatEvent) : Bool :=
  limit ≤ heartbeat_run limit 0 events

/-- An iteration that increments the retry counter: any reconnect attempt
(successful or not), or a failed ping. -/
def heartbeat_increments : HeartbeatEvent → Bool
  | .reconnect _ => true
  | .ping ok => !ok

/-- A failed connect/ping attempt in the sense of the claim. -/
def heartbeat_failed : HeartbeatEvent → Bool
  | .reconnect ok => !ok
  | .ping ok => !ok

/-- C9 counterexample: with a retry limit of 1, a single successful reconnect
attempt — zero failed connect/ping attempts — already reaches the timeout
branch, because `_connect`'s result is discarded and `retries` is incremented
unconditionally; so the timeout is not reached "exactly after N consecutive
failed attempts", and a success does not prevent it. -/
theorem C9_counterexample :
    heartbeat_timeout 1 [HeartbeatEvent.reconnect true] = true ∧
    List.countP heartbeat_failed [HeartbeatEvent.reconnect true] = 0 := by
  decide

theorem heartbeat_run_ge (limit : Nat) (events : List HeartbeatEvent) :
    ∀ r, (limit ≤ heartbeat_run limit r events ↔
      limit ≤ r + List.countP heartbeat_increments events) := by
  induction events with
  | nil => intro r; simp [heartbeat_run]
  | cons e rest ih =>
    intro r
    by_cases hr : r < limit
    · rw [heartbeat_run, if_pos hr, ih (heartbeat_step r e)]
      cases e with
      | reconnect ok =>
        simp [heartbeat_step, heartbeat_increments, List.countP_cons]
        omega
      | ping ok =>
        cases ok <;>
          simp [heartbeat_step, heartbeat_increments, List.countP_cons] <;>
          omega
    · rw [heartbeat_run, if_neg hr]
      omega

/-- C9 (amended): the timeout branch is reached exactly when the number of
counter-incrementing iterations — every iteration that attempted a reconnect,
counted regardless of whether the reconnect succeeded, plus every failed ping —
reaches the configured retry limit; successful pings do not increment the
counter but never reset it either. -/
theorem C9_heartbeat_amended (limit : Nat) (events : List HeartbeatEvent) :
    heartbeat_timeout limit events = true ↔
      limit ≤ List.countP heartbeat_increments events := by
  have h := heartbeat_run_ge limit events 0
  simpa [heartbeat_timeout] using h

/-- Session state of a `BTClient` instance: the fields assigned in `__init__`
and mutated by `_connect` / `disconnect`.  The bleak client is abstracted to the
chosen peer handle, callbacks to a list of (address, callback id) pairs. -/
structure BTClientState where
  client : Option Nat
  disconnect : Bool
  crypto_key : List Nat
  callbacks : List (Nat × Nat)
deriving DecidableEq

/-- External outcome of one `_connect` attempt: the scanner may raise, find
nothing, or produce a strongest device to which the link or the authentication
may then fail. -/
inductive ConnectOutcome where
  | scanError
  | noDevices
  | linkFailed (device : Nat)
  | authFailed (device : Nat)
  | success (device : Nat)
deriving DecidableEq

/-- Embedding of `BTClient._connect` as a state transformer returning its boolean
result.  Its first statement is `self._disconnect = False`; once a device is
chosen, `self._client = BleakClient(plejd_device)` is assigned even when the
subsequent link-up or authentication fails. -/
def connect_attempt (outcome : ConnectOutcome) (s : BTClientState) :
    Bool × BTClientState :=
  let s0 := { s with disconnect := false }
  match outcome with
  | .scanError => (false, s0)
  | .noDevices => (false, s0)
  | .linkFailed device => (false, { s0 with client := some device })
  | .authFailed device => (false, { s0 with client := some device })
  | .success device => (true, { s0 with client := some device })

/-- Embedding of the state effect of `BTClient.disconnect`: it sets
`self._disconnect = True` and touches nothing else of the session state (the
bleak-level disconnect is external). -/
def disconnect_request (s : BTClientState) : BTClientState :=
  { s with disconnect := true }

/-- C10: every `_connect` attempt resets the disconnect flag to False whatever
its outcome, leaving the crypto key, the callback registry and (when no device
is chosen) the client untouched; `disconnect` only sets the flag, so a
disconnect request is silently cancelled by a subsequent reconnect attempt. -/
theorem C10_connect_resets_disconnect (outcome : ConnectOutcome) (s : BTClientState) :
    (connect_attempt outcome s).2.disconnect = false ∧
    (connect_attempt outcome s).2.crypto_key = s.crypto_key ∧
    (connect_attempt outcome s).2.callbacks = s.callbacks ∧
    (disconnect_request s).disconnect = true ∧
    (disconnect_request s).crypto_key = s.crypto_key ∧
    (disconnect_request s).callbacks = s.callbacks ∧
    (disconnect_request s).client = s.client ∧
    (connect_attempt outcome (disconnect_request s)).2.disconnect = false := by
  cases outcome <;>
    simp [connect_attempt, disconnect_request]

end PlejdBT
